import Mathlib

/-!
Shallow embedding of the r2wc connection/session layer
(`src/connection.rs`, `src/connection/peer.rs`).

Messages and wire frames are modelled by their UTF-8 byte sequences
(`List Nat`, each element a `u8` value).  Socket handles are modelled by
abstract numeric identifiers; the outcomes of the non-blocking socket
calls (`TcpListener::accept`, `read_exact`) are supplied as explicit
oracle parameters, so every operation is a pure function of the
`Connection` state and the oracle data.
-/

namespace R2wc

/-- A `u8` value of the Rust code. -/
abbrev Byte := Nat

/-- `Vec::resize(new_len, 0)` as used in `Connection::send_message`
(`connection.rs:214`): truncate to `newLen` when longer, pad with `val`
when shorter. -/
def resize (v : List Byte) (newLen : Nat) (val : Byte) : List Byte :=
  v.take newLen ++ List.replicate (newLen - v.length) val

/-- The framing encoder of `Connection::send_message`
(`connection.rs:213-214`): `let mut buff = msg.into_bytes(); buff.resize(msg_size, 0)`. -/
def encode (msg : List Byte) (msg_size : Nat) : List Byte :=
  resize msg msg_size 0

/-- The framing decoder of `Connection::receive_message`
(`connection.rs:239`): `buff.into_iter().take_while(|x| x != 0)`.
The subsequent `String::from_utf8` step maps these bytes back to text
(fatal on invalid UTF-8) and is the identity on the byte representation. -/
def decode (frame : List Byte) : List Byte :=
  frame.takeWhile (fun x => x != 0)

/-- `Peer` (`peer.rs:4-7`): an owned socket handle (abstract id) plus a
display identity. -/
structure Peer where
  stream : Nat
  who : String
deriving DecidableEq

/-- `Peer::get_client` (`peer.rs:17-29`): one non-blocking accept on the
listener.  The oracle `pending` is the accept outcome: `some (s, addr)`
when a connection with handle `s` from address `addr` was pending,
`none` on would-block. -/
def Peer.get_client (pending : Option (Nat × String)) : Option Peer :=
  match pending with
  | some (s, addr) => some { stream := s, who := addr }
  | none => none

/-- `Connection` (`connection.rs:19-23`). -/
structure Connection where
  msg_size : Nat
  taken : Option Bool
  peer : Option Peer
deriving DecidableEq

/-- Usage message printed by `set_port` (`connection.rs:33`). -/
def serverUsage : String := "Error: Usage ./r2wc-server [addr] [port]"

/-- Usage message printed by `set_server_port` (`connection.rs:62`). -/
def clientUsage : String := "Error: Usage ./r2wc-client [host] [port]"

/-- `set_port` (`connection.rs:29-39`): with `args.len() != 3` it prints
the usage message and calls `process::exit(0x0100)`; otherwise it joins
`args[1]` and `args[2]` with a colon.  `Except.error (msg, code)` models
the printed message together with the exit code passed to `exit`. -/
def set_port (args : List String) : Except (String × Nat) String :=
  if args.length ≠ 3 then Except.error (serverUsage, 0x0100)
  else Except.ok ((args.getD 1 "") ++ ":" ++ (args.getD 2 ""))

/-- `set_server_port` (`connection.rs:58-68`): identical shape, client
usage message. -/
def set_server_port (args : List String) : Except (String × Nat) String :=
  if args.length ≠ 3 then Except.error (clientUsage, 0x0100)
  else Except.ok ((args.getD 1 "") ++ ":" ++ (args.getD 2 ""))

/-- `Connection::new_connection` (`connection.rs:96-102`). -/
def Connection.new_connection (msg_size : Nat) (taken : Option Bool) : Connection :=
  { msg_size := msg_size, taken := taken, peer := none }

/-- `Connection::new_server_connection` (`connection.rs:111-120`): the
Connection half of the returned pair; the `TcpListener` half is modelled
by the accept oracles passed to the await/reject operations. -/
def Connection.new_server_connection (msg_size : Nat) : Connection :=
  { msg_size := msg_size, taken := some false, peer := none }

/-- `Connection::new_client_connection` (`connection.rs:129-135`):
`connect_server()` yields some connected stream (abstract id `stream`),
wrapped with identity "Server". -/
def Connection.new_client_connection (msg_size : Nat) (stream : Nat) : Connection :=
  { msg_size := msg_size, taken := none, peer := some { stream := stream, who := "Server" } }

/-- Outcome of the single `read_exact` call in `Connection::receive_message`
(`connection.rs:237`): a full frame was read, or the read would block,
or any other I/O error occurred. -/
inductive ReadOutcome
  | ok (frame : List Byte)
  | wouldBlock
  | otherError
deriving DecidableEq

/-- The `String` result of `Connection::receive_message`: a decoded
message, or one of the sentinels "Blocked" / "Disconnected" / "Empty". -/
inductive RecvResult
  | msg (bytes : List Byte)
  | blocked
  | disconnected
  | empty
deriving DecidableEq

/-- The `String` result of `Connection::send_message`: "Message sent
{buff}" with the frame that was written, or the sentinel "Empty". -/
inductive SendResult
  | sent (frame : List Byte)
  | empty
deriving DecidableEq

/-- `Connection::send_message` (`connection.rs:208-221`), by `&self`:
the state is not mutated.  The second component is the frame written to
the peer's socket (`write_all`), `none` when no write was performed.
The returned `Stopwatch` timestamp is not modelled. -/
def Connection.send_message (c : Connection) (msg : List Byte) :
    SendResult × Option (List Byte) :=
  match c.peer with
  | some _ =>
      let buff := encode msg c.msg_size
      (SendResult.sent buff, some buff)
  | none => (SendResult.empty, none)

/-- `Connection::receive_message` (`connection.rs:229-258`): one
non-blocking `read_exact` attempt (outcome `r`); returns the result and
the updated connection.  On a non-would-block error the peer is cleared
and `taken` set to `Some(false)` (`connection.rs:249-253`). -/
def Connection.receive_message (c : Connection) (r : ReadOutcome) :
    RecvResult × Connection :=
  match c.peer with
  | some _ =>
      match r with
      | ReadOutcome.ok buff => (RecvResult.msg (decode buff), c)
      | ReadOutcome.wouldBlock => (RecvResult.blocked, c)
      | ReadOutcome.otherError =>
          (RecvResult.disconnected, { c with taken := some false, peer := none })
  | none => (RecvResult.empty, c)

/-- `Connection::await_client` (`connection.rs:143-154`): unbounded busy
loop of non-blocking accepts.  `trace` is the (finite, observed) list of
accept outcomes; `none` means the loop is still spinning past the end of
the observed trace. -/
def Connection.await_client (c : Connection) :
    List (Option (Nat × String)) → Option Connection
  | [] => none
  | o :: rest =>
      match Peer.get_client o with
      | some p => some { c with peer := some p, taken := some true }
      | none => c.await_client rest

/-- `Connection::await_client_timeout` (`connection.rs:162-175`): same
loop guarded by `start.elapsed_ms() < 100`.  Each trace entry pairs the
stopwatch reading at the loop head with the accept outcome polled if the
guard passes; when the trace is exhausted the stopwatch has passed the
bound and the loop exits with the state unchanged. -/
def Connection.await_client_timeout (c : Connection) :
    List (Nat × Option (Nat × String)) → Connection
  | [] => c
  | (t, o) :: rest =>
      if t < 100 then
        match Peer.get_client o with
        | some p => { c with peer := some p, taken := some true }
        | none => c.await_client_timeout rest
      else c

/-- `Connection::reject_other_clients` (`connection.rs:186-197`), by
`&self`: the state is not mutated.  Returns the `(bool, Option<Peer>)`
result together with a flag recording whether `Peer::get_client` (the
one non-blocking accept) was invoked. -/
def Connection.reject_other_clients (c : Connection)
    (pending : Option (Nat × String)) : (Bool × Option Peer) × Bool :=
  match c.taken with
  | some t =>
      if t then ((true, Peer.get_client pending), true)
      else ((false, none), false)
  | none => ((false, none), false)

/-- UTF-8 bytes of "Message Received." (`connection.rs:264`). -/
def messageReceivedBytes : List Byte :=
  [77, 101, 115, 115, 97, 103, 101, 32, 82, 101, 99, 101, 105, 118, 101, 100, 46]

/-- `Connection::notify_message_received` (`connection.rs:263-265`), by
`&self`: sends the fixed acknowledgement via `send_message`, discarding
the result; returns the frame written, if any. -/
def Connection.notify_message_received (c : Connection) : Option (List Byte) :=
  (c.send_message messageReceivedBytes).2

/-- One operation of the session layer, with its oracle data. -/
inductive Op
  | awaitClient (trace : List (Option (Nat × String)))
  | awaitClientTimeout (trace : List (Nat × Option (Nat × String)))
  | rejectOthers (pending : Option (Nat × String))
  | sendMessage (msg : List Byte)
  | receiveMessage (r : ReadOutcome)
  | notifyReceived
deriving DecidableEq

/-- State transition of one operation.  `send_message`,
`reject_other_clients` and `notify_message_received` take `&self` and
leave the state unchanged; for a non-terminating `await_client` trace
the state while the loop spins is likewise unchanged. -/
def Connection.step (c : Connection) : Op → Connection
  | Op.awaitClient tr => (c.await_client tr).getD c
  | Op.awaitClientTimeout tr => c.await_client_timeout tr
  | Op.rejectOthers _ => c
  | Op.sendMessage _ => c
  | Op.receiveMessage r => (c.receive_message r).2
  | Op.notifyReceived => c

/-- State after a sequence of operations. -/
def Connection.run (c : Connection) (ops : List Op) : Connection :=
  ops.foldl Connection.step c

/-- The server-role occupancy invariant: occupancy is occupied
(`taken = Some(true)`) iff a peer is bound. -/
def ServerInv (c : Connection) : Prop :=
  c.taken = some true ↔ c.peer.isSome = true

/-- Operations available to a client-role session that do not hit the
disconnect branch of `receive_message`. -/
def clientSafeOp : Op → Bool
  | Op.sendMessage _ => true
  | Op.notifyReceived => true
  | Op.receiveMessage ReadOutcome.otherError => false
  | Op.receiveMessage _ => true
  | _ => false

/- ### Codec lemmas -/

/-- `takeWhile (x != 0)` keeps a zero-free list whole. -/
theorem takeWhile_ne_zero_of_no_zero (l : List Byte) (hz : ∀ b ∈ l, b ≠ 0) :
    l.takeWhile (fun x => x != 0) = l := by
  induction l with
  | nil => rfl
  | cons a l ih =>
      have ha : (a != 0) = true := by
        simpa using hz a (List.mem_cons_self a l)
      have hrest : ∀ b ∈ l, b ≠ 0 := fun b hb => hz b (List.mem_cons_of_mem a hb)
      simp [List.takeWhile, ha, ih hrest]

/-- `takeWhile (x != 0)` of a zero-free list followed by a nonempty run
of zeros recovers exactly the list. -/
theorem takeWhile_append_replicate_zero (m : List Byte) (k : Nat)
    (hz : ∀ b ∈ m, b ≠ 0) (hk : 0 < k) :
    (m ++ List.replicate k 0).takeWhile (fun x => x != 0) = m := by
  induction m with
  | nil =>
      obtain ⟨k', rfl⟩ := Nat.exists_eq_add_of_lt hk
      simp [List.replicate_succ, List.takeWhile]
  | cons a m ih =>
      have ha : (a != 0) = true := by
        simpa using hz a (List.mem_cons_self a m)
      have hrest : ∀ b ∈ m, b ≠ 0 := fun b hb => hz b (List.mem_cons_of_mem a hb)
      simp [List.takeWhile, ha, ih hrest]

/- ### C1, C2 -/

/-- C1: Round trip of the framing codec — for every message `m` whose
UTF-8 byte length is strictly less than `frame_size` and which contains
no zero byte, decoding the encoding of `m` returns `m`. -/
theorem encode_decode_roundtrip (fs : Nat) (m : List Byte)
    (hlen : m.length < fs) (hz : ∀ b ∈ m, b ≠ 0) :
    decode (encode m fs) = m := by
  have htake : m.take fs = m := List.take_of_length_le (Nat.le_of_lt hlen)
  have hpos : 0 < fs - m.length := Nat.sub_pos_of_lt hlen
  unfold decode encode resize
  rw [htake]
  exact takeWhile_append_replicate_zero m (fs - m.length) hz hpos

/-- Witness for C1 at `frame_size = 5`, `m = "Hi"` (bytes `[72, 105]`). -/
theorem encode_decode_roundtrip_witness :
    ([72, 105] : List Byte).length < 5 ∧ decode (encode [72, 105] 5) = [72, 105] :=
  ⟨by decide, encode_decode_roundtrip 5 [72, 105] (by decide) (by decide)⟩

/-- Counterexample to C2 as stated: `frame_size = 1`, `m = "\x00A"`
(bytes `[0, 65]`, UTF-8 length `2 ≥ 1`).  The encoding is `[0]` but the
decoder stops at the leading zero byte and yields `[]`, not the first
byte of `m`. -/
theorem encode_truncation_cex :
    ¬ ((encode [0, 65] 1).length = 1 ∧
        decode (encode [0, 65] 1) = List.take 1 [0, 65]) := by
  decide

/-- C2 (amended): for every message `m` whose UTF-8 byte length is at
least `frame_size` and which contains no zero byte among its first
`frame_size` bytes, the encoding of `m` is exactly `frame_size` bytes
and decoding that encoding yields the first `frame_size` bytes of `m`. -/
theorem encode_truncation (fs : Nat) (m : List Byte)
    (hlen : fs ≤ m.length) (hz : ∀ b ∈ m.take fs, b ≠ 0) :
    (encode m fs).length = fs ∧ decode (encode m fs) = m.take fs := by
  have hsub : fs - m.length = 0 := Nat.sub_eq_zero_of_le hlen
  have henc : encode m fs = m.take fs := by
    unfold encode resize
    simp [hsub]
  constructor
  · rw [henc, List.length_take]
    exact Nat.min_eq_left hlen
  · rw [henc]
    exact takeWhile_ne_zero_of_no_zero (m.take fs) hz

/-- Witness for C2 (amended) at `frame_size = 2`, `m = "Hi!"`
(bytes `[72, 105, 33]`). -/
theorem encode_truncation_witness :
    2 ≤ ([72, 105, 33] : List Byte).length ∧
      (encode [72, 105, 33] 2).length = 2 ∧
      decode (encode [72, 105, 33] 2) = List.take 2 [72, 105, 33] :=
  ⟨by decide, encode_truncation 2 [72, 105, 33] (by decide) (by decide)⟩

/- ### State-machine lemmas -/

/-- A server-role connection with a bound peer, used as a concrete test
state by the witnesses. -/
def cServ : Connection :=
  { msg_size := 255, taken := some true,
    peer := some { stream := 0, who := "127.0.0.1:9000" } }

/-- Unfolding `run` one operation at a time. -/
theorem Connection.run_cons (c : Connection) (op : Op) (ops : List Op) :
    c.run (op :: ops) = (c.step op).run ops := rfl

/-- `ServerInv` is preserved by the `await_client` loop. -/
theorem ServerInv_await_client (c : Connection)
    (tr : List (Option (Nat × String))) (h : ServerInv c) :
    ServerInv ((c.await_client tr).getD c) := by
  induction tr with
  | nil => simpa [Connection.await_client]
  | cons o rest ih =>
      cases ho : Peer.get_client o with
      | none => simpa [Connection.await_client, ho] using ih
      | some p => simp [Connection.await_client, ho, ServerInv]

/-- `ServerInv` is preserved by the `await_client_timeout` loop. -/
theorem ServerInv_await_timeout (c : Connection)
    (tr : List (Nat × Option (Nat × String))) (h : ServerInv c) :
    ServerInv (c.await_client_timeout tr) := by
  induction tr with
  | nil => simpa [Connection.await_client_timeout]
  | cons e rest ih =>
      obtain ⟨t, o⟩ := e
      by_cases ht : t < 100
      · cases ho : Peer.get_client o with
        | none => simpa [Connection.await_client_timeout, ht, ho] using ih
        | some p => simp [Connection.await_client_timeout, ht, ho, ServerInv]
      · simpa [Connection.await_client_timeout, ht] using h

/-- `ServerInv` is preserved by every single operation. -/
theorem ServerInv_step (c : Connection) (op : Op) (h : ServerInv c) :
    ServerInv (c.step op) := by
  cases op with
  | awaitClient tr => exact ServerInv_await_client c tr h
  | awaitClientTimeout tr => exact ServerInv_await_timeout c tr h
  | rejectOthers p => simpa [Connection.step] using h
  | sendMessage m => simpa [Connection.step] using h
  | receiveMessage r =>
      cases hp : c.peer with
      | none => simpa [Connection.step, Connection.receive_message, hp] using h
      | some p =>
          cases r with
          | ok f => simpa [Connection.step, Connection.receive_message, hp] using h
          | wouldBlock => simpa [Connection.step, Connection.receive_message, hp] using h
          | otherError => simp [Connection.step, Connection.receive_message, hp, ServerInv]
  | notifyReceived => simpa [Connection.step] using h

/-- `ServerInv` is preserved by every operation sequence. -/
theorem ServerInv_run :
    ∀ (ops : List Op) (c : Connection), ServerInv c → ServerInv (c.run ops) := by
  intro ops
  induction ops with
  | nil => intro c h; exact h
  | cons op rest ih =>
      intro c h
      rw [Connection.run_cons]
      exact ih (c.step op) (ServerInv_step c op h)

/-- `taken` and `peer` are untouched by send/notify and by receives whose
read outcome is not a non-would-block error. -/
theorem client_state_preserved :
    ∀ (ops : List Op) (c : Connection), c.taken = none →
      (∀ op ∈ ops, clientSafeOp op = true) →
      (c.run ops).taken = none ∧ (c.run ops).peer = c.peer := by
  intro ops
  induction ops with
  | nil => intro c ht _; exact ⟨ht, rfl⟩
  | cons op rest ih =>
      intro c ht hops
      have hop : clientSafeOp op = true := hops op (List.mem_cons_self _ _)
      have hrest : ∀ o ∈ rest, clientSafeOp o = true :=
        fun o ho => hops o (List.mem_cons_of_mem _ ho)
      have hstep : c.step op = c := by
        cases op with
        | sendMessage m => rfl
        | notifyReceived => rfl
        | receiveMessage r =>
            cases r with
            | ok f =>
                cases hp : c.peer <;>
                  simp [Connection.step, Connection.receive_message, hp]
            | wouldBlock =>
                cases hp : c.peer <;>
                  simp [Connection.step, Connection.receive_message, hp]
            | otherError => simp [clientSafeOp] at hop
        | awaitClient tr => simp [clientSafeOp] at hop
        | awaitClientTimeout tr => simp [clientSafeOp] at hop
        | rejectOthers p => simp [clientSafeOp] at hop
      rw [Connection.run_cons, hstep]
      exact ih c ht hrest

/-- `await_client_timeout` over a trace with no pending connection leaves
the connection untouched. -/
theorem await_timeout_all_none :
    ∀ (trace : List (Nat × Option (Nat × String))) (c : Connection),
      (∀ e ∈ trace, e.2 = none) → c.await_client_timeout trace = c := by
  intro trace
  induction trace with
  | nil => intro c _; rfl
  | cons e rest ih =>
      intro c hnone
      obtain ⟨t, o⟩ := e
      have ho : o = none := hnone (t, o) (List.mem_cons_self _ _)
      have hrest : ∀ e ∈ rest, e.2 = none :=
        fun e he => hnone e (List.mem_cons_of_mem _ he)
      subst ho
      by_cases ht : t < 100
      · simpa [Connection.await_client_timeout, ht, Peer.get_client] using ih c hrest
      · simp [Connection.await_client_timeout, ht]

/- ### C3 -/

/-- C3: Disconnect transition — with a bound peer, a receive whose read
fails with a non-would-block error returns the Disconnected sentinel,
clears the peer, sets occupancy to empty (`taken = Some(false)`), and
afterwards send and receive behave as the empty-peer case. -/
theorem receive_disconnect (c : Connection) (p : Peer) (h : c.peer = some p) :
    (c.receive_message ReadOutcome.otherError).1 = RecvResult.disconnected ∧
    (c.receive_message ReadOutcome.otherError).2.peer = none ∧
    (c.receive_message ReadOutcome.otherError).2.taken = some false ∧
    (∀ m, (c.receive_message ReadOutcome.otherError).2.send_message m =
      (SendResult.empty, none)) ∧
    (∀ r, (c.receive_message ReadOutcome.otherError).2.receive_message r =
      (RecvResult.empty, (c.receive_message ReadOutcome.otherError).2)) := by
  refine ⟨?_, ?_, ?_, fun m => ?_, fun r => ?_⟩ <;>
    simp [Connection.receive_message, Connection.send_message, h]

/-- Witness for C3 on a concrete occupied server connection. -/
theorem receive_disconnect_witness :
    (cServ.receive_message ReadOutcome.otherError).1 = RecvResult.disconnected ∧
    (cServ.receive_message ReadOutcome.otherError).2.peer = none ∧
    (cServ.receive_message ReadOutcome.otherError).2.taken = some false ∧
    (cServ.receive_message ReadOutcome.otherError).2.send_message [72] =
      (SendResult.empty, none) ∧
    (cServ.receive_message ReadOutcome.otherError).2.receive_message
        ReadOutcome.wouldBlock =
      (RecvResult.empty, (cServ.receive_message ReadOutcome.otherError).2) := by
  have h := receive_disconnect cServ { stream := 0, who := "127.0.0.1:9000" } rfl
  exact ⟨h.1, h.2.1, h.2.2.1, h.2.2.2.1 [72], h.2.2.2.2 ReadOutcome.wouldBlock⟩

/- ### C4 -/

/-- C4: Server-role occupancy invariant — a connection constructed by
`new_server_connection` satisfies `taken = Some(true) ↔ peer present`
initially (empty operation sequence) and after every sequence of
await/reject/send/receive/notify operations. -/
theorem server_occupancy_invariant (n : Nat) (ops : List Op) :
    ServerInv ((Connection.new_server_connection n).run ops) :=
  ServerInv_run ops (Connection.new_server_connection n)
    (by simp [ServerInv, Connection.new_server_connection])

/- ### C5 -/

/-- C5: Empty-peer guard — with no bound peer, send returns the Empty
sentinel writing nothing to any socket and leaving the state unchanged,
and receive returns the Empty sentinel with the state unchanged,
independently of any read outcome (no read is performed). -/
theorem empty_peer_guard (c : Connection) (h : c.peer = none) :
    (∀ m, c.send_message m = (SendResult.empty, none)) ∧
    (∀ m, c.step (Op.sendMessage m) = c) ∧
    (∀ r, c.receive_message r = (RecvResult.empty, c)) := by
  refine ⟨fun m => ?_, fun m => rfl, fun r => ?_⟩
  · simp [Connection.send_message, h]
  · simp [Connection.receive_message, h]

/-- Witness for C5 on a freshly constructed server connection. -/
theorem empty_peer_guard_witness :
    (Connection.new_server_connection 255).send_message [72] =
      (SendResult.empty, none) ∧
    (Connection.new_server_connection 255).receive_message ReadOutcome.wouldBlock =
      (RecvResult.empty, Connection.new_server_connection 255) := by
  have h := empty_peer_guard (Connection.new_server_connection 255) rfl
  exact ⟨h.1 [72], h.2.2 ReadOutcome.wouldBlock⟩

/- ### C6 -/

/-- Counterexample to C6 as stated: on a client-role connection, a
receive whose read fails with a non-would-block error clears the bound
peer (and sets `taken` to `Some(false)`), so the peer does not remain
bound across every sequence of send/receive/notify operations. -/
theorem client_stability_cex :
    (Connection.new_client_connection 255 0).taken = none ∧
    (Connection.new_client_connection 255 0).peer =
      some { stream := 0, who := "Server" } ∧
    ((Connection.new_client_connection 255 0).run
        [Op.receiveMessage ReadOutcome.otherError]).peer = none ∧
    ((Connection.new_client_connection 255 0).run
        [Op.receiveMessage ReadOutcome.otherError]).taken = some false :=
  ⟨rfl, rfl, rfl, rfl⟩

/-- C6 (amended): on a client-role connection, occupancy stays
not-applicable (`taken = none`) and the peer stays bound with identity
"Server" across every sequence of send, receive and notify operations in
which no receive's read fails with a non-would-block error. -/
theorem client_occupancy_stability (msg_size stream : Nat) (ops : List Op)
    (hops : ∀ op ∈ ops, clientSafeOp op = true) :
    ((Connection.new_client_connection msg_size stream).run ops).taken = none ∧
    ((Connection.new_client_connection msg_size stream).run ops).peer =
      some { stream := stream, who := "Server" } := by
  have h := client_state_preserved ops
    (Connection.new_client_connection msg_size stream) rfl hops
  exact ⟨h.1, h.2⟩

/-- Witness for C6 (amended) over a send/receive/notify sequence. -/
theorem client_occupancy_stability_witness :
    ((Connection.new_client_connection 255 0).run
        [Op.sendMessage [72], Op.receiveMessage ReadOutcome.wouldBlock,
          Op.notifyReceived]).taken = none ∧
    ((Connection.new_client_connection 255 0).run
        [Op.sendMessage [72], Op.receiveMessage ReadOutcome.wouldBlock,
          Op.notifyReceived]).peer = some { stream := 0, who := "Server" } :=
  client_occupancy_stability 255 0 _ (by decide)

/- ### C7 -/

/-- C7: Admission policy of `reject_other_clients` — when occupied it
performs the one non-blocking accept and reports `(true, drained suitor
or none)`; when empty or not-applicable it performs no accept and
reports `(false, none)`; in all cases the connection state (occupancy
and bound peer) is unchanged. -/
theorem reject_others_admission (c : Connection) (pending : Option (Nat × String)) :
    c.reject_other_clients pending =
      (if c.taken = some true then ((true, Peer.get_client pending), true)
       else ((false, none), false)) ∧
    c.step (Op.rejectOthers pending) = c := by
  refine ⟨?_, rfl⟩
  cases ht : c.taken with
  | none => simp [Connection.reject_other_clients, ht]
  | some t => cases t <;> simp [Connection.reject_other_clients, ht]

/- ### C8 -/

/-- C8: Would-block stability — with a bound peer, a receive whose read
reports would-block returns the Blocked sentinel with the state (frame
size, occupancy, peer) unchanged, and any number of repeated such
receives leaves the state unchanged. -/
theorem would_block_stability (c : Connection) (p : Peer) (h : c.peer = some p) :
    c.receive_message ReadOutcome.wouldBlock = (RecvResult.blocked, c) ∧
    ∀ n, c.run (List.replicate n (Op.receiveMessage ReadOutcome.wouldBlock)) = c := by
  have hone : c.receive_message ReadOutcome.wouldBlock = (RecvResult.blocked, c) := by
    simp [Connection.receive_message, h]
  refine ⟨hone, fun n => ?_⟩
  induction n with
  | zero => rfl
  | succ k ih =>
      rw [List.replicate_succ, Connection.run_cons]
      have hstep : c.step (Op.receiveMessage ReadOutcome.wouldBlock) = c := by
        simp [Connection.step, hone]
      rw [hstep]
      exact ih

/-- Witness for C8: three repeated would-block receives on a concrete
occupied connection. -/
theorem would_block_stability_witness :
    cServ.receive_message ReadOutcome.wouldBlock = (RecvResult.blocked, cServ) ∧
    cServ.run (List.replicate 3 (Op.receiveMessage ReadOutcome.wouldBlock)) = cServ := by
  have h := would_block_stability cServ { stream := 0, who := "127.0.0.1:9000" } rfl
  exact ⟨h.1, h.2 3⟩

/- ### C9 -/

/-- C9: Bounded wait of `await_client_timeout` — over any poll trace on
which no connection arrives the loop terminates with the connection
unchanged (no peer bound, occupancy unchanged), and once the stopwatch
reading reaches the 100ms bound the loop stops polling and returns
immediately with the connection unchanged. -/
theorem await_timeout_no_arrival (c : Connection)
    (trace : List (Nat × Option (Nat × String)))
    (hnone : ∀ e ∈ trace, e.2 = none) :
    c.await_client_timeout trace = c ∧
    ∀ (t : Nat) (o : Option (Nat × String))
      (rest : List (Nat × Option (Nat × String))),
      100 ≤ t → c.await_client_timeout ((t, o) :: rest) = c := by
  refine ⟨await_timeout_all_none trace c hnone, fun t o rest ht => ?_⟩
  have ht' : ¬ t < 100 := Nat.not_lt.mpr ht
  simp [Connection.await_client_timeout, ht']

/-- Witness for C9: a two-poll empty trace and an expired stopwatch
reading on a fresh server connection. -/
theorem await_timeout_no_arrival_witness :
    (Connection.new_server_connection 255).await_client_timeout
        [(0, none), (50, none)] = Connection.new_server_connection 255 ∧
    (Connection.new_server_connection 255).await_client_timeout
        [(150, none)] = Connection.new_server_connection 255 := by
  have h := await_timeout_no_arrival (Connection.new_server_connection 255)
    [(0, none), (50, none)] (by decide)
  exact ⟨h.1, h.2 150 none [] (by decide)⟩

/- ### C10 -/

/-- C10 (code evaluated at the failing input): on a wrong argument
count, both argument checkers print the usage message and pass
`0x0100 = 256` to `process::exit`; the OS reports a process exit status
of the low 8 bits, `256 % 256 = 0`, i.e. a zero status, contradicting
the documented clean non-zero exit. -/
theorem wrong_arg_count_exit (args : List String) (h : args.length ≠ 3) :
    set_port args = Except.error (serverUsage, 0x0100) ∧
    set_server_port args = Except.error (clientUsage, 0x0100) ∧
    0x0100 % 256 = 0 :=
  ⟨by simp [set_port, h], by simp [set_server_port, h], rfl⟩

/-- Witness for C10 at a concrete argument list of wrong length. -/
theorem wrong_arg_count_exit_witness :
    set_port ["r2wc-server"] = Except.error (serverUsage, 0x0100) ∧
    set_server_port ["r2wc-server"] = Except.error (clientUsage, 0x0100) ∧
    0x0100 % 256 = 0 :=
  wrong_arg_count_exit ["r2wc-server"] (by decide)

end R2wc
